import Mathlib

/-!
Shallow embedding of the card-sandbox program (src/main.py) and proofs of the
specification claims.

The program is a pygame sandbox: a `Deck` of 52 `Card`s, a table of in-play
cards, and a `Game` controller turning mouse events into state mutations.
Pure data and algorithms are translated directly; pygame rendering calls are
modelled as lists of abstract draw commands; Python object identity (the held
card is the same object as an element of `cards_on_table`) is modelled with an
arena: a pool of card records indexed by card id, with the deck and the table
holding lists of ids.
-/

namespace CardSandbox

/-! ## Constants (src/main.py lines 5-25) -/

def SCREEN_WIDTH : Int := 1200
def SCREEN_HEIGHT : Int := 900

def CARD_WIDTH : Int := 80
def CARD_HEIGHT : Int := 120

def COLOR_BLACK : Nat × Nat × Nat := (0, 0, 0)
def COLOR_RED : Nat × Nat × Nat := (200, 0, 0)
def COLOR_GREY : Nat × Nat × Nat := (150, 150, 150)

def DECK_POS : Int × Int := (30, 30)

/-! ## Rect: the part of pygame.Rect the program uses.

`collidepoint` is pygame semantics: a point on the right or bottom edge is
outside.  Assigning `rect.center = pos` sets the top-left corner to
`pos - (w/2, h/2)`; reading `center` gives `(x + w/2, y + h/2)`. -/

structure Rect where
  x : Int
  y : Int
  w : Int
  h : Int
deriving DecidableEq, Repr

def Rect.collidepoint (r : Rect) (p : Int × Int) : Bool :=
  r.x ≤ p.1 && p.1 < r.x + r.w && r.y ≤ p.2 && p.2 < r.y + r.h

def Rect.setCenter (r : Rect) (p : Int × Int) : Rect :=
  { r with x := p.1 - r.w / 2, y := p.2 - r.h / 2 }

def Rect.center (r : Rect) : Int × Int := (r.x + r.w / 2, r.y + r.h / 2)

/-! ## Card (src/main.py lines 29-82)

The two precomputed face surfaces are pure functions of rank/suit/color and a
fixed back design, so they carry no extra state; a card is its rank, suit
character, suit color, face-up flag and bounding box.  `Card.__init__` sets
`is_flipped = False` and `rect = image.get_rect()`, a rect at the origin with
the card dimensions. -/

structure Card where
  rank : String
  suit_char : Char
  suit_color : Nat × Nat × Nat
  is_flipped : Bool
  rect : Rect
deriving DecidableEq, Repr

def Card.init (rank : String) (suit_char : Char) (suit_color : Nat × Nat × Nat) : Card :=
  { rank := rank, suit_char := suit_char, suit_color := suit_color,
    is_flipped := false, rect := ⟨0, 0, CARD_WIDTH, CARD_HEIGHT⟩ }

/-- `Card.flip` (src/main.py line 69): toggle the face-up flag. -/
def Card.flip (c : Card) : Card := { c with is_flipped := !c.is_flipped }

/-! ## Deck (src/main.py lines 84-118) -/

/-- Suit characters with their colors, in the source's dict insertion order. -/
def suitsList : List (Char × (Nat × Nat × Nat)) :=
  [('♠', COLOR_BLACK), ('♣', COLOR_BLACK), ('♥', COLOR_RED), ('♦', COLOR_RED)]

def ranksList : List String :=
  ["A", "2", "3", "4", "5", "6", "7", "8", "9", "10", "J", "Q", "K"]

structure Deck where
  cards : List Card
  deck_rect : Rect
deriving DecidableEq, Repr

/-- `Deck._generate` (src/main.py lines 92-100): 52 cards, suits outer loop,
ranks inner loop. -/
def Deck.generate : List Card :=
  suitsList.flatMap fun sc => ranksList.map fun r => Card.init r sc.1 sc.2

/-- The deck's fixed screen region (src/main.py line 90). -/
def deckRect : Rect := ⟨DECK_POS.1, DECK_POS.2, CARD_WIDTH, CARD_HEIGHT⟩

/-- `Deck.draw_card` (src/main.py lines 105-109): pop the last element if the
list is non-empty, else return `None` and leave the deck unchanged. -/
def Deck.draw_card (d : Deck) : Option Card × Deck :=
  match d.cards.getLast? with
  | some c => (some c, { d with cards := d.cards.dropLast })
  | none => (none, d)

/-- `n` successive `draw_card` calls, collecting the results in order. -/
def Deck.iterateDraws : Nat → Deck → List (Option Card) × Deck
  | 0, d => ([], d)
  | n + 1, d =>
    let r := d.draw_card
    let rest := Deck.iterateDraws n r.2
    (r.1 :: rest.1, rest.2)

/-! Rendering is modelled as the list of draw commands issued to the screen. -/

inductive DrawCmd where
  /-- blit of the given card's back-face surface at the given rect -/
  | blitBackImage (c : Card) (r : Rect)
  /-- outline rectangle of the given color at the given rect -/
  | outlineRect (color : Nat × Nat × Nat) (r : Rect)
deriving DecidableEq, Repr

/-- `Deck.draw` (src/main.py lines 111-118): if the pile is non-empty, blit
`self.cards[0].back_image` at the deck rect; otherwise draw a grey outline.
Note the source indexes `cards[0]`, the FIRST list element, while
`draw_card` pops the LAST. -/
def Deck.draw (d : Deck) : List DrawCmd :=
  match d.cards with
  | c :: _ => [DrawCmd.blitBackImage c d.deck_rect]
  | [] => [DrawCmd.outlineRect COLOR_GREY d.deck_rect]

/-! ## Shuffle (src/main.py lines 102-103)

`Deck.shuffle` calls Python's `random.shuffle`, the in-place Fisher-Yates of
the standard library: for `i` from `len-1` down to `1`, pick `j` uniformly in
`[0, i]` and swap positions `i` and `j`.  We model the randomness source as a
function `rand : Nat → Nat`; the index drawn at step `i` is `rand i % (i+1)`,
which is in `[0, i]` exactly as `randbelow(i+1)` guarantees. -/

/-- Swap the elements at positions `i` and `j`; identity when either index is
out of range (Fisher-Yates only uses in-range indices). -/
def listSwap (l : List α) (i j : Nat) : List α :=
  match l[i]?, l[j]? with
  | some a, some b => (l.set i b).set j a
  | _, _ => l

/-- The Fisher-Yates loop body: handle index `i`, then recurse downward;
the loop stops before index 0. -/
def fyGo (rand : Nat → Nat) : Nat → List α → List α
  | 0, l => l
  | i + 1, l => fyGo rand i (listSwap l (i + 1) (rand (i + 1) % (i + 2)))

def fisherYates (rand : Nat → Nat) (l : List α) : List α :=
  fyGo rand (l.length - 1) l

def Deck.shuffle (rand : Nat → Nat) (d : Deck) : Deck :=
  { d with cards := fisherYates rand d.cards }

/-! ## Game (src/main.py lines 120-221)

Python object identity matters here: `self.held_card` aliases an element of
`self.cards_on_table`, and a card drawn from the deck is the same object that
lands on the table.  We therefore keep every card record in a `pool` indexed
by card id (its index in generation order) and let the deck and the table be
lists of ids.  `list.remove(card)` in Python compares by identity (Card
defines no `__eq__`), i.e. it erases the first occurrence of the id. -/

structure GameState where
  /-- all card records, indexed by card id -/
  pool : List Card
  /-- ids of undrawn cards; the last element is the next to be popped -/
  deckCards : List Nat
  /-- the deck's screen region (`self.deck.deck_rect`) -/
  deck_rect : Rect
  /-- `self.cards_on_table`: ids in render order, last = topmost -/
  table : List Nat
  /-- `self.held_card` -/
  held : Option Nat
  /-- `self.drag_offset` -/
  drag_offset : Int × Int
deriving DecidableEq, Repr

/-- Fallback card for out-of-range pool lookups; reachable states never use it. -/
def cardFallback : Card := Card.init "A" '♠' COLOR_BLACK

/-- Dereference a card id (reading a field of the aliased Python object). -/
def GameState.card (s : GameState) (id : Nat) : Card :=
  s.pool.getD id cardFallback

/-- Mutate the card object with the given id (visible through every alias). -/
def GameState.setCard (s : GameState) (id : Nat) (c : Card) : GameState :=
  { s with pool := s.pool.set id c }

/-- The reverse-order hit-test `for card in reversed(self.cards_on_table):
if card.rect.collidepoint(pos)` — first hit from topmost to bottommost. -/
def GameState.findHit (s : GameState) (pos : Int × Int) : Option Nat :=
  s.table.reverse.find? fun id => (s.card id).rect.collidepoint pos

/-- Pop the top of the deck id list (Python `self.cards.pop()`). -/
def popLast (l : List Nat) : Option (Nat × List Nat) :=
  match l.getLast? with
  | some id => some (id, l.dropLast)
  | none => none

/-- `Game.handle_mouse_down` (src/main.py lines 159-194).  `button` 1 is the
primary (left) button, 3 the secondary (right) button. -/
def GameState.handle_mouse_down (s : GameState) (button : Nat) (pos : Int × Int) :
    GameState :=
  if button = 1 then
    if s.deck_rect.collidepoint pos then
      -- draw a new card from the deck; `return` stops processing either way
      match popLast s.deckCards with
      | some (id, rest) =>
        let c := s.card id
        let c' := { c with rect := c.rect.setCenter pos }
        { s with pool := s.pool.set id c',
                 deckCards := rest,
                 table := s.table ++ [id],
                 held := some id,
                 drag_offset := (pos.1 - c'.rect.x, pos.2 - c'.rect.y) }
      | none => s
    else
      -- pick up an existing table card: promote to the end, record offset
      match s.findHit pos with
      | some id =>
        { s with held := some id,
                 table := s.table.erase id ++ [id],
                 drag_offset := (pos.1 - (s.card id).rect.x, pos.2 - (s.card id).rect.y) }
      | none => s
  else if button = 3 then
    match s.findHit pos with
    | some id => s.setCard id (s.card id).flip
    | none => s
  else s

/-- `Game.handle_mouse_up` (src/main.py lines 196-199): only button 1
releases the held card. -/
def GameState.handle_mouse_up (s : GameState) (button : Nat) : GameState :=
  if button = 1 then { s with held := none } else s

/-- `Game.handle_mouse_motion` (src/main.py lines 201-206): move the held
card, if any, to the pointer position minus the drag offset. -/
def GameState.handle_mouse_motion (s : GameState) (pos : Int × Int) : GameState :=
  match s.held with
  | some id =>
    let c := s.card id
    s.setCard id { c with rect := { c.rect with x := pos.1 - s.drag_offset.1,
                                                y := pos.2 - s.drag_offset.2 } }
  | none => s

/-! The event loop (src/main.py lines 135-157) dispatches each pygame event
to the matching handler; QUIT only ends the loop. -/

inductive Event where
  | mouseDown (button : Nat) (pos : Int × Int)
  | mouseUp (button : Nat)
  | mouseMotion (pos : Int × Int)

def GameState.step (s : GameState) : Event → GameState
  | .mouseDown b pos => s.handle_mouse_down b pos
  | .mouseUp b => s.handle_mouse_up b
  | .mouseMotion pos => s.handle_mouse_motion pos

/-- `Game.__init__` (src/main.py lines 120-133): a freshly generated,
shuffled deck; empty table; nothing held. -/
def GameState.init (rand : Nat → Nat) : GameState :=
  { pool := Deck.generate,
    deckCards := fisherYates rand (List.range Deck.generate.length),
    deck_rect := deckRect,
    table := [],
    held := none,
    drag_offset := (0, 0) }

/-- Run a whole event sequence from the initial state. -/
def GameState.run (rand : Nat → Nat) (events : List Event) : GameState :=
  events.foldl GameState.step (GameState.init rand)

/-! ## Helper lemmas about list draws -/

theorem iterateDraws_full (l : List Card) : ∀ d : Deck, d.cards = l →
    Deck.iterateDraws l.length d = (l.reverse.map some, { d with cards := [] }) := by
  induction l using List.reverseRecOn with
  | nil =>
    intro d hd
    simp [Deck.iterateDraws]
    cases d
    simp_all
  | append_singleton as a ih =>
    intro d hd
    have hlen : (as ++ [a]).length = as.length + 1 := by simp
    rw [hlen]
    have hdraw : d.draw_card = (some a, { d with cards := as }) := by
      simp [Deck.draw_card, hd]
    simp only [Deck.iterateDraws, hdraw]
    rw [ih { d with cards := as } rfl]
    simp

theorem iterateDraws_empty (k : Nat) (d : Deck) (hd : d.cards = []) :
    Deck.iterateDraws k d = (List.replicate k none, d) := by
  induction k with
  | zero => simp [Deck.iterateDraws]
  | succ n ih =>
    have hdraw : d.draw_card = (none, d) := by simp [Deck.draw_card, hd]
    simp [Deck.iterateDraws, hdraw, ih, List.replicate_succ]

theorem iterateDraws_add (m n : Nat) (d : Deck) :
    Deck.iterateDraws (m + n) d =
      ((Deck.iterateDraws m d).1 ++ (Deck.iterateDraws n (Deck.iterateDraws m d).2).1,
        (Deck.iterateDraws n (Deck.iterateDraws m d).2).2) := by
  induction m generalizing d with
  | zero => simp [Deck.iterateDraws]
  | succ k ih =>
    have : k + 1 + n = (k + n) + 1 := by omega
    rw [this]
    simp only [Deck.iterateDraws, ih]
    simp

/-! ## Helper lemmas: a Fisher-Yates swap is a permutation -/

theorem cons_set_perm {α : Type} : ∀ (t : List α) (k : Nat) (hk : k < t.length) (a : α),
    List.Perm (t[k] :: t.set k a) (a :: t)
  | b :: t', 0, _, a => by
    simpa using List.Perm.swap a b t'
  | b :: t', k + 1, hk, a => by
    have hk' : k < t'.length := by simpa using hk
    have h1 : List.Perm (t'[k] :: b :: t'.set k a) (b :: t'[k] :: t'.set k a) :=
      List.Perm.swap b (t'[k]) (t'.set k a)
    have h2 : List.Perm (b :: t'[k] :: t'.set k a) (b :: a :: t') :=
      List.Perm.cons b (cons_set_perm t' k hk' a)
    have h3 : List.Perm (b :: a :: t') (a :: b :: t') := List.Perm.swap a b t'
    simpa using (h1.trans h2).trans h3

theorem set_set_perm {α : Type} : ∀ (l : List α) (i j : Nat)
    (hi : i < l.length) (hj : j < l.length),
    List.Perm ((l.set i l[j]).set j l[i]) l
  | x :: t, 0, 0, _, _ => by simp
  | x :: t, 0, m + 1, _, hj => by
    have hm : m < t.length := by simpa using hj
    simpa using cons_set_perm t m hm x
  | x :: t, n + 1, 0, hi, _ => by
    have hn : n < t.length := by simpa using hi
    simpa using cons_set_perm t n hn x
  | x :: t, n + 1, m + 1, hi, hj => by
    have hn : n < t.length := by simpa using hi
    have hm : m < t.length := by simpa using hj
    simpa using List.Perm.cons x (set_set_perm t n m hn hm)

theorem listSwap_perm {α : Type} (l : List α) (i j : Nat) :
    List.Perm (listSwap l i j) l := by
  unfold listSwap
  cases hi : l[i]? with
  | none => simp
  | some a =>
    cases hj : l[j]? with
    | none => simp
    | some b =>
      obtain ⟨hi', rfl⟩ := List.getElem?_eq_some_iff.mp hi
      obtain ⟨hj', rfl⟩ := List.getElem?_eq_some_iff.mp hj
      exact set_set_perm l i j hi' hj'

theorem fyGo_perm {α : Type} (rand : Nat → Nat) : ∀ (i : Nat) (l : List α),
    List.Perm (fyGo rand i l) l
  | 0, l => List.Perm.refl l
  | i + 1, l =>
    (fyGo_perm rand i _).trans (listSwap_perm l (i + 1) (rand (i + 1) % (i + 2)))

theorem fisherYates_perm {α : Type} (rand : Nat → Nat) (l : List α) :
    List.Perm (fisherYates rand l) l := fyGo_perm rand (l.length - 1) l

/-! ## Claims C5, C6, C7, C9: the Deck component -/

/-- Claim C5: a freshly generated deck contains exactly 52 cards, the
(rank, suit) pairs are pairwise distinct and drawn from the 13-rank and
4-suit domains (each domain pair occurs), and every card starts face-down. -/
theorem C5_generated_deck :
    Deck.generate.length = 52 ∧
    (Deck.generate.map fun c => (c.rank, c.suit_char)).Nodup ∧
    (∀ c ∈ Deck.generate, c.is_flipped = false) ∧
    (∀ c ∈ Deck.generate, c.rank ∈ ranksList ∧ c.suit_char ∈ suitsList.map Prod.fst) ∧
    (∀ r ∈ ranksList, ∀ sc ∈ suitsList, ∃ c ∈ Deck.generate,
      c.rank = r ∧ c.suit_char = sc.1) := by
  decide

/-- Claim C6: on a non-empty deck, `draw_card` removes and returns the last
(top) element and the size shrinks by exactly one; on an empty deck it
returns `none` and changes nothing; from any fresh (generated and arbitrarily
permuted) deck, 52 successive draws return 52 pairwise-distinct cards and
every draw after that returns `none`. -/
theorem C6_draw_from_deck (d : Deck) (h : List.Perm d.cards Deck.generate) :
    (∀ e : Deck, e.cards ≠ [] →
      e.draw_card.1 = e.cards.getLast? ∧ e.draw_card.2.cards.length + 1 = e.cards.length) ∧
    (∀ e : Deck, e.cards = [] → e.draw_card = (none, e)) ∧
    (Deck.iterateDraws 52 d).1.Nodup ∧
    (∀ o ∈ (Deck.iterateDraws 52 d).1, o ≠ none) ∧
    (∀ k, (Deck.iterateDraws (52 + k) d).1 =
      (Deck.iterateDraws 52 d).1 ++ List.replicate k none) := by
  have hlen : d.cards.length = 52 := by
    have := h.length_eq
    simpa using this
  have hfull := iterateDraws_full d.cards d rfl
  rw [hlen] at hfull
  have hnd : d.cards.Nodup := h.symm.nodup (by decide)
  refine ⟨?_, ?_, ?_, ?_, ?_⟩
  · intro e he
    cases hl : e.cards.getLast? with
    | none => simp_all
    | some c =>
      have hpos : 0 < e.cards.length := List.length_pos.mpr he
      constructor
      · simp [Deck.draw_card, hl]
      · simp [Deck.draw_card, hl, List.length_dropLast]
        omega
  · intro e he
    simp [Deck.draw_card, he]
  · rw [hfull]
    exact ((List.nodup_reverse.mpr hnd).map (Option.some_injective _))
  · rw [hfull]
    simp
  · intro k
    rw [iterateDraws_add]
    rw [hfull]
    rw [iterateDraws_empty k _ rfl]

/-- Witness for C6 at the concrete freshly generated deck. -/
theorem C6_draw_from_deck_witness :
    List.Perm (Deck.mk Deck.generate deckRect).cards Deck.generate ∧
    (Deck.iterateDraws 52 (Deck.mk Deck.generate deckRect)).1.Nodup ∧
    (∀ o ∈ (Deck.iterateDraws 52 (Deck.mk Deck.generate deckRect)).1, o ≠ none) :=
  ⟨List.Perm.refl _,
    (C6_draw_from_deck (Deck.mk Deck.generate deckRect) (List.Perm.refl _)).2.2.1,
    (C6_draw_from_deck (Deck.mk Deck.generate deckRect) (List.Perm.refl _)).2.2.2.1⟩

/-- Claim C7: shuffling is a permutation — for every deck state and every
randomness source, the post-shuffle card sequence is a reordering of exactly
the same cards (same length, same membership).  Every other operation of the
embedding is a deterministic function taking no randomness source, so the
shuffle parameter `rand` is the only randomness in the model. -/
theorem C7_shuffle_perm (rand : Nat → Nat) (d : Deck) :
    List.Perm (d.shuffle rand).cards d.cards ∧
    (d.shuffle rand).cards.length = d.cards.length ∧
    (∀ c : Card, c ∈ (d.shuffle rand).cards ↔ c ∈ d.cards) :=
  have hp : List.Perm (d.shuffle rand).cards d.cards := fisherYates_perm rand d.cards
  ⟨hp, hp.length_eq, fun _ => hp.mem_iff⟩

/-- Claim C9 (code bug): `Deck.draw` is claimed to blit the back face of the
card that the next `draw_card` would return.  On the freshly generated deck
the render blits `cards[0]` (the ace of spades, the BOTTOM of the draw
order) while the next draw returns the last element (the king of diamonds):
the two cards differ.  The empty-pile outline case behaves as claimed. -/
theorem C9_deck_render_wrong_card :
    Deck.draw (Deck.mk Deck.generate deckRect) =
      [DrawCmd.blitBackImage (Card.init "A" '♠' COLOR_BLACK) deckRect] ∧
    (Deck.draw_card (Deck.mk Deck.generate deckRect)).1 =
      some (Card.init "K" '♦' COLOR_RED) ∧
    Card.init "A" '♠' COLOR_BLACK ≠ Card.init "K" '♦' COLOR_RED ∧
    Deck.draw (Deck.mk [] deckRect) = [DrawCmd.outlineRect COLOR_GREY deckRect] := by
  decide

/-! ## Helper lemmas about GameState -/

theorem popLast_concat (l : List Nat) (id : Nat) :
    popLast (l ++ [id]) = some (id, l) := by
  simp [popLast]

theorem set_self_eq {α : Type} : ∀ (l : List α) (i : Nat) (h : i < l.length),
    l.set i l[i] = l
  | _ :: _, 0, _ => rfl
  | a :: t, n + 1, h => by
    have hn : n < t.length := by simpa using h
    simpa using set_self_eq t n hn

theorem flip_flip (c : Card) : c.flip.flip = c := by
  cases c
  simp [Card.flip]

theorem flip_rect (c : Card) : c.flip.rect = c.rect := rfl

theorem card_setCard_self (s : GameState) (id : Nat) (c : Card) (h : id < s.pool.length) :
    (s.setCard id c).card id = c := by
  simp [GameState.setCard, GameState.card, List.getElem?_set_self h]

theorem card_setCard_ne (s : GameState) (id j : Nat) (c : Card) (h : j ≠ id) :
    (s.setCard id c).card j = s.card j := by
  simp [GameState.setCard, GameState.card, List.getElem?_set_ne (Ne.symm h)]

theorem setCard_oob (s : GameState) (id : Nat) (c : Card) (h : s.pool.length ≤ id) :
    s.setCard id c = s := by
  cases s
  simp [GameState.setCard, List.set_eq_of_length_le h]

theorem card_eq_getElem (s : GameState) (id : Nat) (h : id < s.pool.length) :
    s.card id = s.pool[id] := by
  simp [GameState.card, List.getElem?_eq_getElem h]

theorem findHit_congr (s t : GameState) (pos : Int × Int)
    (h : ∀ j, (t.card j).rect = (s.card j).rect) (ht : t.table = s.table) :
    t.findHit pos = s.findHit pos := by
  unfold GameState.findHit
  rw [ht]
  congr 1
  funext j
  rw [h j]

theorem rclick_none (s : GameState) (pos : Int × Int) (hf : s.findHit pos = none) :
    s.handle_mouse_down 3 pos = s := by
  simp [GameState.handle_mouse_down, hf]

theorem rclick_some (s : GameState) (pos : Int × Int) (id : Nat)
    (hf : s.findHit pos = some id) :
    s.handle_mouse_down 3 pos = s.setCard id (s.card id).flip := by
  simp [GameState.handle_mouse_down, hf]

/-! ## Claims C1-C4: the pointer-event handlers -/

/-- Claim C1: a primary press inside the deck region draws from the deck and
never hit-tests the table: if the deck is non-empty (its id list splits as
`rest ++ [id]`), card `id` is popped, centered at the press point, appended
to the table as topmost, held with offset press-point minus box origin, and
it stays face-down; the deck shrinks by one and every other card is
untouched; if the deck is empty, nothing changes at all.  (The table is only
ever appended to, never reordered — no table hit-test takes place.) -/
theorem C1_primary_press_on_deck (s : GameState) (pos : Int × Int)
    (hdeck : s.deck_rect.collidepoint pos = true)
    (hvalid : ∀ id ∈ s.deckCards, id < s.pool.length)
    (hface : ∀ id ∈ s.deckCards, (s.card id).is_flipped = false) :
    (s.deckCards = [] → s.handle_mouse_down 1 pos = s) ∧
    (∀ id rest, s.deckCards = rest ++ [id] →
      (s.handle_mouse_down 1 pos).deckCards = rest ∧
      (s.handle_mouse_down 1 pos).deckCards.length + 1 = s.deckCards.length ∧
      (s.handle_mouse_down 1 pos).table = s.table ++ [id] ∧
      (s.handle_mouse_down 1 pos).held = some id ∧
      ((s.handle_mouse_down 1 pos).card id).is_flipped = false ∧
      ((s.handle_mouse_down 1 pos).card id).rect.center = pos ∧
      (s.handle_mouse_down 1 pos).drag_offset =
        (pos.1 - ((s.handle_mouse_down 1 pos).card id).rect.x,
         pos.2 - ((s.handle_mouse_down 1 pos).card id).rect.y) ∧
      (∀ j, j ≠ id → (s.handle_mouse_down 1 pos).card j = s.card j) ∧
      (s.handle_mouse_down 1 pos).pool.length = s.pool.length) := by
  constructor
  · intro hempty
    simp [GameState.handle_mouse_down, hdeck, popLast, hempty]
  · intro id rest hsplit
    have hmem : id ∈ s.deckCards := by rw [hsplit]; simp
    have hid : id < s.pool.length := hvalid id hmem
    have hcard : (s.handle_mouse_down 1 pos).card id =
        { s.card id with rect := (s.card id).rect.setCenter pos } := by
      simp only [GameState.handle_mouse_down, hdeck, hsplit, popLast_concat, if_pos]
      simp [GameState.card, List.getElem?_set_self hid]
    refine ⟨?_, ?_, ?_, ?_, ?_, ?_, ?_, ?_, ?_⟩
    · simp [GameState.handle_mouse_down, hdeck, hsplit, popLast_concat]
    · simp [GameState.handle_mouse_down, hdeck, hsplit, popLast_concat]
    · simp [GameState.handle_mouse_down, hdeck, hsplit, popLast_concat]
    · simp [GameState.handle_mouse_down, hdeck, hsplit, popLast_concat]
    · rw [hcard]
      exact hface id hmem
    · rw [hcard]
      simp only [Rect.center, Rect.setCenter, Int.sub_add_cancel]
    · rw [hcard]
      simp [GameState.handle_mouse_down, hdeck, hsplit, popLast_concat, Rect.setCenter]
    · intro j hj
      simp [GameState.handle_mouse_down, hdeck, hsplit, popLast_concat,
        GameState.card, List.getElem?_set_ne (Ne.symm hj)]
    · simp [GameState.handle_mouse_down, hdeck, hsplit, popLast_concat]

/-- Concrete state for the witnesses: one card in the pool, sitting in the
deck; empty table; nothing held. -/
def wStateDeck : GameState :=
  { pool := [Card.init "A" '♠' COLOR_BLACK],
    deckCards := [0], deck_rect := deckRect, table := [],
    held := none, drag_offset := (0, 0) }

/-- Witness for C1: pressing at (50, 50), inside the deck region, on
`wStateDeck`. -/
theorem C1_primary_press_on_deck_witness :
    wStateDeck.deck_rect.collidepoint (50, 50) = true ∧
    (wStateDeck.handle_mouse_down 1 (50, 50)).held = some 0 ∧
    (wStateDeck.handle_mouse_down 1 (50, 50)).table = [] ++ [0] ∧
    ((wStateDeck.handle_mouse_down 1 (50, 50)).card 0).rect.center = (50, 50) :=
  have h := (C1_primary_press_on_deck wStateDeck (50, 50) (by decide) (by decide)
    (by decide)).2 0 [] rfl
  ⟨by decide, h.2.2.2.1, h.2.2.1, h.2.2.2.2.2.1⟩

/-- Claim C2: a primary press outside the deck region hit-tests the table
from topmost (last) to bottommost: when the topmost-first search finds `id`,
that card's box contains the point, every card above it misses the point,
the card is promoted to the end of the table (relative order of the rest
preserved — the erased list is a sublist), the press-point-minus-origin
offset is recorded and the card becomes held, while the pool and the deck
are untouched; when no card's box contains the point, nothing changes. -/
theorem C2_primary_press_table_hit (s : GameState) (pos : Int × Int)
    (hdeck : s.deck_rect.collidepoint pos = false) :
    (∀ id, s.findHit pos = some id →
      (s.card id).rect.collidepoint pos = true ∧
      id ∈ s.table ∧
      (∃ above below, s.table.reverse = above ++ id :: below ∧
        ∀ j ∈ above, (s.card j).rect.collidepoint pos = false) ∧
      (s.handle_mouse_down 1 pos).table = s.table.erase id ++ [id] ∧
      (s.handle_mouse_down 1 pos).held = some id ∧
      (s.handle_mouse_down 1 pos).drag_offset =
        (pos.1 - (s.card id).rect.x, pos.2 - (s.card id).rect.y) ∧
      (s.handle_mouse_down 1 pos).pool = s.pool ∧
      (s.handle_mouse_down 1 pos).deckCards = s.deckCards ∧
      List.Sublist (s.table.erase id) s.table) ∧
    (s.findHit pos = none ↔ ∀ j ∈ s.table, (s.card j).rect.collidepoint pos = false) ∧
    (s.findHit pos = none → s.handle_mouse_down 1 pos = s) := by
  refine ⟨?_, ?_, ?_⟩
  · intro id hfind
    have hfind' : s.table.reverse.find? (fun j => (s.card j).rect.collidepoint pos) = some id :=
      hfind
    have hp : (s.card id).rect.collidepoint pos = true := by
      have := List.find?_some hfind'
      simpa using this
    have hmem : id ∈ s.table := by
      have := List.mem_of_find?_eq_some hfind'
      simpa using this
    have hsplit := (List.find?_eq_some.mp hfind').2
    obtain ⟨above, below, hab, habove⟩ := hsplit
    refine ⟨hp, hmem, ⟨above, below, hab, ?_⟩, ?_, ?_, ?_, ?_, ?_,
      List.erase_sublist id s.table⟩
    · intro j hj
      have := habove j hj
      simpa using this
    · simp [GameState.handle_mouse_down, hdeck, GameState.findHit, hfind']
    · simp [GameState.handle_mouse_down, hdeck, GameState.findHit, hfind']
    · simp [GameState.handle_mouse_down, hdeck, GameState.findHit, hfind']
    · simp [GameState.handle_mouse_down, hdeck, GameState.findHit, hfind']
    · simp [GameState.handle_mouse_down, hdeck, GameState.findHit, hfind']
  · rw [GameState.findHit, List.find?_eq_none]
    constructor
    · intro h j hj
      have := h j (by simpa using hj)
      simpa using this
    · intro h j hj
      have := h j (by simpa using hj)
      simp [this]
  · intro hnone
    have hnone' : s.table.reverse.find? (fun j => (s.card j).rect.collidepoint pos) = none :=
      hnone
    simp [GameState.handle_mouse_down, hdeck, GameState.findHit, hnone']

/-- Concrete state for the C2/C3/C4 witnesses: one card on the table at
(480, 480), nothing in the deck. -/
def wStateTable : GameState :=
  { pool := [{ Card.init "A" '♠' COLOR_BLACK with rect := ⟨480, 480, 80, 120⟩ }],
    deckCards := [], deck_rect := deckRect, table := [0],
    held := none, drag_offset := (0, 0) }

/-- Witness for C2: a press at (500, 500) hits the table card; a press at
(5, 500) hits nothing and changes nothing. -/
theorem C2_primary_press_table_hit_witness :
    wStateTable.deck_rect.collidepoint (500, 500) = false ∧
    (wStateTable.handle_mouse_down 1 (500, 500)).held = some 0 ∧
    (wStateTable.handle_mouse_down 1 (500, 500)).table = [0].erase 0 ++ [0] ∧
    (wStateTable.handle_mouse_down 1 (5, 500)) = wStateTable :=
  have hhit := (C2_primary_press_table_hit wStateTable (500, 500) (by decide)).1 0 (by decide)
  have hmiss := (C2_primary_press_table_hit wStateTable (5, 500) (by decide)).2.2 (by decide)
  ⟨by decide, hhit.2.2.2.2.1, hhit.2.2.2.1, hmiss⟩

/-- Claim C3: while card `id` is held, a pointer-move sets exactly that
card's box origin to the pointer position minus the drag offset, leaving the
card's size, faces and flag, every other card, the deck, the table order,
the held reference and the offset unchanged; moving the pointer by (dx, dy)
therefore moves the origin by exactly (dx, dy); and a primary release clears
the held reference unconditionally while mutating nothing else (the card
keeps its last dragged position). -/
theorem C3_drag_motion_and_release (s : GameState) (id : Nat) (pos : Int × Int)
    (hheld : s.held = some id) (hid : id < s.pool.length) :
    (((s.handle_mouse_motion pos).card id).rect.x = pos.1 - s.drag_offset.1 ∧
     ((s.handle_mouse_motion pos).card id).rect.y = pos.2 - s.drag_offset.2 ∧
     ((s.handle_mouse_motion pos).card id).rect.w = (s.card id).rect.w ∧
     ((s.handle_mouse_motion pos).card id).rect.h = (s.card id).rect.h ∧
     ((s.handle_mouse_motion pos).card id).rank = (s.card id).rank ∧
     ((s.handle_mouse_motion pos).card id).suit_char = (s.card id).suit_char ∧
     ((s.handle_mouse_motion pos).card id).is_flipped = (s.card id).is_flipped) ∧
    (∀ j, j ≠ id → (s.handle_mouse_motion pos).card j = s.card j) ∧
    ((s.handle_mouse_motion pos).deckCards = s.deckCards ∧
     (s.handle_mouse_motion pos).table = s.table ∧
     (s.handle_mouse_motion pos).held = s.held ∧
     (s.handle_mouse_motion pos).drag_offset = s.drag_offset ∧
     (s.handle_mouse_motion pos).deck_rect = s.deck_rect) ∧
    (∀ dx dy : Int,
      ((s.handle_mouse_motion (pos.1 + dx, pos.2 + dy)).card id).rect.x
          = ((s.handle_mouse_motion pos).card id).rect.x + dx ∧
      ((s.handle_mouse_motion (pos.1 + dx, pos.2 + dy)).card id).rect.y
          = ((s.handle_mouse_motion pos).card id).rect.y + dy) ∧
    (∀ t : GameState, (t.handle_mouse_up 1).held = none ∧
      (t.handle_mouse_up 1).pool = t.pool ∧
      (t.handle_mouse_up 1).deckCards = t.deckCards ∧
      (t.handle_mouse_up 1).table = t.table ∧
      (t.handle_mouse_up 1).drag_offset = t.drag_offset) := by
  have hcard : ∀ p : Int × Int, (s.handle_mouse_motion p).card id =
      { s.card id with rect := { (s.card id).rect with x := p.1 - s.drag_offset.1,
                                                       y := p.2 - s.drag_offset.2 } } := by
    intro p
    simp [GameState.handle_mouse_motion, hheld, GameState.setCard, GameState.card,
      List.getElem?_set_self hid]
  refine ⟨?_, ?_, ?_, ?_, ?_⟩
  · rw [hcard]
    simp
  · intro j hj
    simp [GameState.handle_mouse_motion, hheld, GameState.setCard, GameState.card,
      List.getElem?_set_ne (Ne.symm hj)]
  · simp [GameState.handle_mouse_motion, hheld, GameState.setCard]
  · intro dx dy
    rw [hcard, hcard]
    constructor
    · simp
      omega
    · simp
      omega
  · intro t
    simp [GameState.handle_mouse_up]

/-- `wStateTable` with its table card held at grab offset (20, 20). -/
def wStateHeld : GameState :=
  { wStateTable with held := some 0, drag_offset := (20, 20) }

/-- Witness for C3: `wStateHeld`, whose card was grabbed at (500, 500) with
offset (20, 20), dragged to (600, 550) — a move of (100, 50). -/
theorem C3_drag_motion_and_release_witness :
    wStateHeld.held = some 0 ∧
    ((wStateHeld.handle_mouse_motion (600, 550)).card 0).rect.x = 600 - 20 ∧
    ((wStateHeld.handle_mouse_motion (600, 550)).card 0).rect.y = 550 - 20 :=
  have h := C3_drag_motion_and_release wStateHeld 0 (600, 550) rfl (by decide)
  ⟨rfl, h.1.1, h.1.2.1⟩

/-- Claim C4: a secondary press toggles the face-up flag of exactly the
first (topmost) card hit: the toggled card's flag inverts, all other cards
and every position, the table order, the deck and the held reference are
untouched, a miss changes nothing, and performing the same secondary press
twice restores the entire state. -/
theorem C4_flip_toggle (s : GameState) (pos : Int × Int) :
    (s.handle_mouse_down 3 pos).handle_mouse_down 3 pos = s ∧
    ((s.handle_mouse_down 3 pos).table = s.table ∧
     (s.handle_mouse_down 3 pos).held = s.held ∧
     (s.handle_mouse_down 3 pos).deckCards = s.deckCards ∧
     (s.handle_mouse_down 3 pos).drag_offset = s.drag_offset) ∧
    (∀ j, ((s.handle_mouse_down 3 pos).card j).rect = (s.card j).rect ∧
          ((s.handle_mouse_down 3 pos).card j).rank = (s.card j).rank ∧
          ((s.handle_mouse_down 3 pos).card j).suit_char = (s.card j).suit_char) ∧
    (∀ id, s.findHit pos = some id → id < s.pool.length →
       ((s.handle_mouse_down 3 pos).card id).is_flipped = !(s.card id).is_flipped ∧
       ∀ j, j ≠ id → (s.handle_mouse_down 3 pos).card j = s.card j) ∧
    (s.findHit pos = none → s.handle_mouse_down 3 pos = s) := by
  have hframe : ∀ (t : GameState) (q : Int × Int),
      (t.handle_mouse_down 3 q).table = t.table ∧
      (t.handle_mouse_down 3 q).held = t.held ∧
      (t.handle_mouse_down 3 q).deckCards = t.deckCards ∧
      (t.handle_mouse_down 3 q).drag_offset = t.drag_offset := by
    intro t q
    cases hf : t.findHit q with
    | none => rw [rclick_none t q hf]; exact ⟨rfl, rfl, rfl, rfl⟩
    | some id => rw [rclick_some t q id hf]; exact ⟨rfl, rfl, rfl, rfl⟩
  have hcards : ∀ (t : GameState) (q : Int × Int) (j : Nat),
      ((t.handle_mouse_down 3 q).card j).rect = (t.card j).rect ∧
      ((t.handle_mouse_down 3 q).card j).rank = (t.card j).rank ∧
      ((t.handle_mouse_down 3 q).card j).suit_char = (t.card j).suit_char := by
    intro t q j
    cases hf : t.findHit q with
    | none => rw [rclick_none t q hf]; exact ⟨rfl, rfl, rfl⟩
    | some id =>
      rw [rclick_some t q id hf]
      by_cases hlt : id < t.pool.length
      · by_cases hj : j = id
        · subst hj
          rw [card_setCard_self t j _ hlt]
          exact ⟨rfl, rfl, rfl⟩
        · rw [card_setCard_ne t id j _ hj]
          exact ⟨rfl, rfl, rfl⟩
      · rw [setCard_oob t id _ (Nat.le_of_not_lt hlt)]
        exact ⟨rfl, rfl, rfl⟩
  refine ⟨?_, hframe s pos, hcards s pos, ?_, rclick_none s pos⟩
  · cases hf : s.findHit pos with
    | none =>
      rw [rclick_none s pos hf, rclick_none s pos hf]
    | some id =>
      have hstep := rclick_some s pos id hf
      have hrects : ∀ j, ((s.handle_mouse_down 3 pos).card j).rect = (s.card j).rect :=
        fun j => (hcards s pos j).1
      have hfind2 : (s.handle_mouse_down 3 pos).findHit pos = some id := by
        rw [findHit_congr s _ pos hrects (hframe s pos).1, hf]
      rw [rclick_some _ pos id hfind2]
      by_cases hlt : id < s.pool.length
      · rw [hstep, card_setCard_self s id _ hlt, flip_flip,
          card_eq_getElem s id hlt]
        cases s
        simp [GameState.setCard, List.set_set]
        exact set_self_eq _ _ hlt
      · rw [hstep, setCard_oob s id _ (Nat.le_of_not_lt hlt),
          setCard_oob s id _ (Nat.le_of_not_lt hlt)]
  · intro id hf hlt
    rw [rclick_some s pos id hf]
    constructor
    · rw [card_setCard_self s id _ hlt]
      rfl
    · intro j hj
      exact card_setCard_ne s id j _ hj

/-- Witness for C4: right-clicking the table card of `wStateTable` at
(500, 500) flips it; right-clicking twice restores the state. -/
theorem C4_flip_toggle_witness :
    ((wStateTable.handle_mouse_down 3 (500, 500)).card 0).is_flipped = true ∧
    (wStateTable.handle_mouse_down 3 (500, 500)).handle_mouse_down 3 (500, 500)
      = wStateTable :=
  have h := C4_flip_toggle wStateTable (500, 500)
  have hflip := h.2.2.2.1 0 (by decide) (by decide)
  ⟨by rw [hflip.1]; decide, h.1⟩

/-! ## Claims C8, C10: whole-session invariant and non-primary release -/

/-- The invariant of claim C8: a non-null held-card reference denotes a card
currently on the table. -/
def HeldOnTable (s : GameState) : Prop := ∀ id, s.held = some id → id ∈ s.table

theorem down_held_table (s : GameState) (b : Nat) (pos : Int × Int) :
    ((s.handle_mouse_down b pos).held = s.held ∧
      (s.handle_mouse_down b pos).table = s.table) ∨
    (∃ id, (s.handle_mouse_down b pos).held = some id ∧
      id ∈ (s.handle_mouse_down b pos).table) := by
  by_cases hb : b = 1
  · subst hb
    by_cases hc : s.deck_rect.collidepoint pos
    · cases hp : popLast s.deckCards with
      | none =>
        left
        simp [GameState.handle_mouse_down, hc, hp]
      | some p =>
        right
        refine ⟨p.1, ?_, ?_⟩
        · simp [GameState.handle_mouse_down, hc, hp]
        · simp [GameState.handle_mouse_down, hc, hp]
    · cases hfnd : s.findHit pos with
      | none =>
        left
        simp [GameState.handle_mouse_down, hc, hfnd]
      | some j =>
        right
        refine ⟨j, ?_, ?_⟩
        · simp [GameState.handle_mouse_down, hc, hfnd]
        · simp [GameState.handle_mouse_down, hc, hfnd]
  · by_cases hb3 : b = 3
    · subst hb3
      left
      cases hfnd : s.findHit pos with
      | none => rw [rclick_none s pos hfnd]; exact ⟨rfl, rfl⟩
      | some j => rw [rclick_some s pos j hfnd]; exact ⟨rfl, rfl⟩
    · left
      simp [GameState.handle_mouse_down, hb, hb3]

theorem motion_held_table (s : GameState) (pos : Int × Int) :
    (s.handle_mouse_motion pos).held = s.held ∧
      (s.handle_mouse_motion pos).table = s.table := by
  cases hh : s.held with
  | none => simp [GameState.handle_mouse_motion, hh]
  | some j => simp [GameState.handle_mouse_motion, hh, GameState.setCard]

theorem step_heldOnTable (s : GameState) (e : Event) (h : HeldOnTable s) :
    HeldOnTable (s.step e) := by
  cases e with
  | mouseDown b pos =>
    rcases down_held_table s b pos with ⟨h1, h2⟩ | ⟨id, h1, h2⟩
    · intro id hid
      rw [GameState.step] at hid ⊢
      rw [h1] at hid
      rw [h2]
      exact h id hid
    · intro j hj
      rw [GameState.step] at hj ⊢
      rw [h1] at hj
      cases hj
      exact h2
  | mouseUp b =>
    intro id hid
    rw [GameState.step] at hid ⊢
    by_cases hb : b = 1
    · subst hb
      simp [GameState.handle_mouse_up] at hid
    · simp only [GameState.handle_mouse_up, if_neg hb] at hid ⊢
      exact h id hid
  | mouseMotion pos =>
    intro id hid
    rw [GameState.step] at hid ⊢
    rw [(motion_held_table s pos).1] at hid
    rw [(motion_held_table s pos).2]
    exact h id hid

theorem run_heldOnTable (events : List Event) : ∀ s : GameState, HeldOnTable s →
    HeldOnTable (events.foldl GameState.step s) := by
  induction events with
  | nil => intro s h; exact h
  | cons e rest ih =>
    intro s h
    exact ih (s.step e) (step_heldOnTable s e h)

/-- Claim C8: in every state reachable from the initial session state by any
sequence of pointer events, a non-null held-card reference denotes a card
that is an element of the in-play (table) sequence. -/
theorem C8_held_on_table_invariant (rand : Nat → Nat) (events : List Event) (id : Nat)
    (h : (GameState.run rand events).held = some id) :
    id ∈ (GameState.run rand events).table := by
  have hinit : HeldOnTable (GameState.init rand) := by
    intro j hj
    simp [GameState.init] at hj
  exact run_heldOnTable events (GameState.init rand) hinit id h

set_option maxRecDepth 4000 in
/-- Witness for C8: after one primary press on the deck region from the
initial state (with a constant randomness source), the held card is card 0
and the theorem places it on the table. -/
theorem C8_held_on_table_invariant_witness :
    (GameState.run (fun _ => 0) [Event.mouseDown 1 (50, 50)]).held = some 0 ∧
    0 ∈ (GameState.run (fun _ => 0) [Event.mouseDown 1 (50, 50)]).table :=
  ⟨by decide, C8_held_on_table_invariant (fun _ => 0) [Event.mouseDown 1 (50, 50)] 0
    (by decide)⟩

/-- Claim C10: a pointer-button-up for any non-primary button changes
nothing at all (a held card stays held); only a primary-button release
clears the held card, and it changes nothing else. -/
theorem C10_nonprimary_release_noop (s : GameState) (b : Nat) (h : b ≠ 1) :
    s.handle_mouse_up b = s ∧
    (s.handle_mouse_up 1).held = none ∧
    (s.handle_mouse_up 1).pool = s.pool ∧
    (s.handle_mouse_up 1).deckCards = s.deckCards ∧
    (s.handle_mouse_up 1).table = s.table ∧
    (s.handle_mouse_up 1).drag_offset = s.drag_offset := by
  refine ⟨?_, ?_, ?_, ?_, ?_, ?_⟩ <;> simp [GameState.handle_mouse_up, h]

/-- Witness for C10: a secondary-button (button 3) release on the dragging
state `wStateHeld` is a no-op; the primary release clears the held card. -/
theorem C10_nonprimary_release_noop_witness :
    wStateHeld.handle_mouse_up 3 = wStateHeld ∧
    (wStateHeld.handle_mouse_up 1).held = none :=
  have h := C10_nonprimary_release_noop wStateHeld 3 (by decide)
  ⟨h.1, h.2.1⟩

end CardSandbox
